import Mathlib

/-!
Verification of the LSP layer of the StyLua formatter
(`src/cli/lsp.rs` and `src/cli/lsp/fmt.rs`).

Documents are modelled as lists of characters (one character per UTF-8 code
unit, which is exact for ASCII content; the server negotiates UTF-8 position
encoding, so `character` counts the same addressable unit as the buffer).
Rust panics (`expect`, out-of-bounds slicing, `replace_range` misuse) are
modelled as the `Except`-error outcome `Panic`, which is a process abort and
is distinct from a structured JSON-RPC error (`JsonRpcError`).
External collaborators (the `similar` diff crate, `stylua_lib`'s config and
formatting engine, the LSP wire types) are modelled from the spec where
their sources are outside this repository; every function of the repository
itself is translated directly from the Rust source.
-/

set_option autoImplicit false

deriving instance DecidableEq for Except

namespace StyLuaLsp

/-- A document's text: one entry per code unit (exact for ASCII). -/
abbrev Text := List Char

/-- Document identifier, `tower_lsp::lsp_types::Url` modelled as a string key. -/
abbrev Url := String

/-- A Rust panic (process abort), as opposed to a structured protocol error. -/
structure Panic where
  message : String
deriving DecidableEq, Repr

/-- Protocol position: zero-based line and character (`lsp_types::Position`). -/
structure Position where
  line : Nat
  character : Nat
deriving DecidableEq, Repr

/-- Protocol range (`lsp_types::Range`); the source's `end` field is named
`ending` because `end` is a Lean keyword. -/
structure Range where
  start : Position
  ending : Position
deriving DecidableEq, Repr

/-- A region replacement in protocol coordinates (`lsp_types::TextEdit`). -/
structure TextEdit where
  range : Range
  new_text : Text
deriving DecidableEq, Repr

/-- Splits a character buffer into lines, each line keeping its trailing
terminator except possibly the last, and an empty buffer yielding no lines:
Rust's `str::split_inclusive('\n')` as used by `position_to_offset`. -/
def splitInclusive (s : Text) : List Text :=
  go [] s
where
  /-- `acc` holds the current (unterminated) line, reversed. -/
  go (acc : List Char) : List Char → List Text
    | [] => if acc.isEmpty then [] else [acc.reverse]
    | c :: cs =>
      if c = '\n' then (acc.reverse ++ ['\n']) :: go [] cs
      else go (c :: acc) cs

/-- The running sum of line lengths produced by the `scan` in
`position_to_offset`: entry `i` is the offset at the start of line `i`. -/
def lineStartsFrom (acc : Nat) : List Text → List Nat
  | [] => []
  | l :: ls => acc :: lineStartsFrom (acc + l.length) ls

/-- Offsets at the start of each line of `s`. -/
def lineStarts (s : Text) : List Nat :=
  lineStartsFrom 0 (splitInclusive s)

/-- Number of lines of `s` under the `split_inclusive` convention. -/
def lineCount (s : Text) : Nat :=
  (splitInclusive s).length

/-- Total length of a list of lines. -/
def sumLens : List Text → Nat
  | [] => 0
  | l :: ls => l.length + sumLens ls

/-- Spec-side description of the offset at the start of line `i`: the sum of
the lengths of the lines before it. -/
def lineStartSum (s : Text) (i : Nat) : Nat :=
  sumLens ((splitInclusive s).take i)

/-- The Offset Translator, `position_to_offset` in `src/cli/lsp.rs`:
scan the buffer's inclusive lines accumulating start offsets, pick the
`line`-th start, then take the length of the slice `s[0..start+character]`.
The slice panics (Rust: byte index out of bounds) when `start + character`
exceeds the buffer length; the panic is the `Except.error` outcome. -/
def position_to_offset (pos : Position) (s : Text) : Except Panic (Option Nat) :=
  match (lineStarts s).get? pos.line with
  | none => .ok none
  | some offset_at_start =>
    if offset_at_start + pos.character ≤ s.length then
      .ok (some (s.take (offset_at_start + pos.character)).length)
    else
      .error ⟨"byte index out of bounds of string slice"⟩

/-- Modelled from the spec: `stylua_lib::IndentType`, part of the external
configuration collaborator interface. -/
inductive IndentType
  | Tabs
  | Spaces
deriving DecidableEq, Repr

/-- Modelled from the spec: `stylua_lib::LineEndings`, the configured
line-ending style used to join inserted lines. -/
inductive LineEndings
  | Unix
  | Windows
deriving DecidableEq, Repr

/-- Modelled from the spec: `stylua_lib::QuoteStyle` (opaque to this core). -/
inductive QuoteStyle
  | AutoPreferDouble
  | AutoPreferSingle
  | ForceDouble
  | ForceSingle
deriving DecidableEq, Repr

/-- Modelled from the spec: `stylua_lib::CallParenType` (opaque to this core). -/
inductive CallParenType
  | Always
  | NoSingleString
  | NoSingleTable
  | NoneParens
deriving DecidableEq, Repr

/-- Modelled from the spec: `stylua_lib::CollapseSimpleStatement`
(opaque to this core). -/
inductive CollapseSimpleStatement
  | Never
  | FunctionOnly
  | ConditionalOnly
  | Always
deriving DecidableEq, Repr

/-- Modelled from the spec: `stylua_lib::Config`, the configuration produced
by the external resolver (`resolve_config`); this core only ever overrides
`indent_width` and `indent_type`. -/
structure Config where
  column_width : Nat
  line_endings : LineEndings
  indent_type : IndentType
  indent_width : Nat
  quote_style : QuoteStyle
  call_parens : CallParenType
  collapse_simple_statement : CollapseSimpleStatement
  sort_requires : Bool
deriving DecidableEq, Repr

/-- Editor-supplied formatting options (`lsp_types::FormattingOptions`);
the fields beyond `tab_size` and `insert_spaces` are ignored by the code. -/
structure FormattingOptions where
  tab_size : Nat
  insert_spaces : Bool
  trim_trailing_whitespace : Option Bool
  insert_final_newline : Option Bool
  trim_final_newlines : Option Bool
deriving DecidableEq, Repr

/-- `get_config` in `src/cli/lsp/fmt.rs`, after the external configuration
resolver has produced `resolved` (`load_configuration(..).unwrap_or_default()`):
override the resolved configuration's indent width and indent type with the
editor-supplied options, leaving the rest untouched. -/
def get_config (resolved : Config) (format_options : FormattingOptions) : Config :=
  { resolved with
    indent_width := format_options.tab_size
    indent_type := if format_options.insert_spaces then .Spaces else .Tabs }

/-- A line-level diff operation over the old and new texts, mirroring
`similar::DiffOp` (constructor and field names from that crate). -/
inductive DiffOp
  | equal (old_index new_index len : Nat)
  | delete (old_index old_len new_index : Nat)
  | insert (old_index new_index new_len : Nat)
  | replace (old_index old_len new_index new_len : Nat)
deriving DecidableEq, Repr

/-- Whether a diff op is an `Equal` span. -/
def DiffOp.isEqualOp : DiffOp → Bool
  | .equal _ _ _ => true
  | _ => false

/-- Strip one trailing line terminator (`\n` or `\r\n`) from a line, as
Rust's `str::lines` does; a lone trailing `\r` is kept. -/
def stripLineTerminator (l : Text) : Text :=
  if l.getLast? = some '\n' then
    let l1 := l.dropLast
    if l1.getLast? = some '\r' then l1.dropLast else l1
  else l

/-- Rust's `str::lines()`: split inclusively on `\n`, then strip each line's
terminator; no trailing empty line is produced. -/
def rustLines (s : Text) : List Text :=
  (splitInclusive s).map stripLineTerminator

/-- The separator string `join` uses for the configured line-ending style. -/
def lineEndingSeparator : LineEndings → Text
  | .Unix => ['\n']
  | .Windows => ['\r', '\n']

/-- `diff_op_to_text_edit` in `src/cli/lsp/fmt.rs`: convert one diff op into
an optional `TextEdit`. Inserted/replacement text is built by
`new_text.lines().skip(new_index).take(new_len).collect().join(separator)` —
note that `lines()` strips terminators and `join` only separates, so the
joined text carries no trailing terminator. -/
def diff_op_to_text_edit (diff_op : DiffOp) (new_text : Text)
    (line_endings : LineEndings) : Option TextEdit :=
  match diff_op with
  | .equal _ _ _ => none
  | .delete old_index old_len _ =>
    some ⟨⟨⟨old_index, 0⟩, ⟨old_index + old_len, 0⟩⟩, []⟩
  | .insert old_index new_index new_len =>
    some ⟨⟨⟨old_index, 0⟩, ⟨old_index, 0⟩⟩,
      List.intercalate (lineEndingSeparator line_endings)
        (((rustLines new_text).drop new_index).take new_len)⟩
  | .replace old_index old_len new_index new_len =>
    some ⟨⟨⟨old_index, 0⟩, ⟨old_index + old_len, 0⟩⟩,
      List.intercalate (lineEndingSeparator line_endings)
        (((rustLines new_text).drop new_index).take new_len)⟩

/-- Length of the common prefix of two line lists. -/
def commonPrefixLen : List Text → List Text → Nat
  | a :: as_, b :: bs => if a = b then commonPrefixLen as_ bs + 1 else 0
  | _, _ => 0

/-- Length of the common suffix of two line lists. -/
def commonSuffixLen (x y : List Text) : Nat :=
  commonPrefixLen x.reverse y.reverse

/-- Modelled from the spec: the external `similar` crate's line-level diff
(`TextDiff::from_lines`), an external collaborator whose source is outside
this repository. The spec admits any deterministic LCS-style line diff that
is minimal on its fixtures; this model strips the common prefix and suffix
and emits a single `Insert`/`Delete`/`Replace` op for the middle, which is
deterministic and agrees with the spec's fixtures. -/
def computeDiff (old new : List Text) : List DiffOp :=
  let p := commonPrefixLen old new
  let oldRest := old.drop p
  let newRest := new.drop p
  let s := commonSuffixLen oldRest newRest
  let oldMid := oldRest.take (oldRest.length - s)
  let newMid := newRest.take (newRest.length - s)
  (if p ≠ 0 then [DiffOp.equal 0 0 p] else []) ++
  (if oldMid.length = 0 ∧ newMid.length = 0 then []
   else if oldMid.length = 0 then [DiffOp.insert p p newMid.length]
   else if newMid.length = 0 then [DiffOp.delete p oldMid.length p]
   else [DiffOp.replace p oldMid.length p newMid.length]) ++
  (if s ≠ 0 then [DiffOp.equal (old.length - s) (new.length - s) s] else [])

/-- Modelled from the spec: `similar`'s `grouped_ops(0)` — zero lines of
context, so `Equal` spans are dropped and the non-equal ops are kept in
order. The orchestrator immediately flattens the groups, so the grouping
granularity is irrelevant downstream and the changed ops are kept as one
group. -/
def groupedOpsZero (ops : List DiffOp) : List (List DiffOp) :=
  let changed := ops.filter (fun op => !op.isEqualOp)
  if changed.isEmpty then [] else [changed]

/-- The Diff-to-Edit Translator pipeline at the end of `format_document`:
diff the old and new texts line-wise, group with zero context, and convert
each op to a `TextEdit`. -/
def diffEdits (old new : Text) (line_endings : LineEndings) : List TextEdit :=
  (groupedOpsZero (computeDiff (splitInclusive old) (splitInclusive new))).flatMap
    (fun group => group.filterMap (fun op => diff_op_to_text_edit op new line_endings))

/-- The Document Store (`DashMap<Url, String>` in the `Backend`), modelled
extensionally as a partial map from URIs to texts. -/
def DocumentMap := Url → Option Text

/-- `DashMap::insert`: map `uri` to `text`, replacing any previous entry. -/
def mapInsert (uri : Url) (text : Text) (m : DocumentMap) : DocumentMap :=
  fun v => if v = uri then some text else m v

/-- The empty document store. -/
def emptyMap : DocumentMap := fun _ => none

/-- `stylua_lib::Range`: the offset range handed to the formatting engine;
a `none` bound means that side is unbounded. Field `end` is named `ending`
because `end` is a Lean keyword. -/
structure StyluaRange where
  start : Option Nat
  ending : Option Nat
deriving DecidableEq, Repr

/-- The external formatting engine `format_code` (a collaborator outside
this repository), as a total function: the spec's step 4 requires it to
succeed on previously-accepted content. -/
def Engine := Text → Config → Option StyluaRange → Text

/-- `format_document` in `src/cli/lsp/fmt.rs`. A missing document is the
`expect` panic at the lookup; translating either sub-range position may
itself panic inside `position_to_offset`; an unresolved position (`none`)
is NOT an error here — it is stored as an unbounded side of the
`stylua_lib::Range` passed to the engine. The external configuration
resolver's output is the `resolved` parameter and the engine is the
`engine` parameter. -/
def format_document (document_map : DocumentMap) (uri : Url)
    (range : Option Range) (format_options : FormattingOptions)
    (resolved : Config) (engine : Engine) : Except Panic (List TextEdit) :=
  match document_map uri with
  | none => .error ⟨"textDocument/didOpen must have been called before"⟩
  | some document =>
    let config := get_config resolved format_options
    match range with
    | none =>
      let result := engine document config none
      .ok (diffEdits document result config.line_endings)
    | some r =>
      match position_to_offset r.start document with
      | .error p => .error p
      | .ok startOffset =>
        match position_to_offset r.ending document with
        | .error p => .error p
        | .ok endOffset =>
          let result := engine document config (some ⟨startOffset, endOffset⟩)
          .ok (diffEdits document result config.line_endings)

/-- One element of `contentChanges`
(`lsp_types::TextDocumentContentChangeEvent`). -/
structure TextDocumentContentChangeEvent where
  range : Option Range
  range_length : Option Nat
  text : Text
deriving Repr

/-- Rust's `String::replace_range(start..end, text)`: panics when the range
is inverted or past the end of the string; otherwise splices `text` over
`s[start..end]`. -/
def replaceRange (s : Text) (start stop : Nat) (text : Text) :
    Except Panic Text :=
  if start ≤ stop ∧ stop ≤ s.length then
    .ok (s.take start ++ text ++ s.drop stop)
  else
    .error ⟨"replace_range: range out of bounds"⟩

/-- One iteration of the loop in `did_change` (`src/cli/lsp.rs`): a
range-bearing event requires the document to be present (`expect` panic
otherwise) and both positions to resolve (`expect` panic on `None`), then
splices the event's text over the resolved offsets; a range-less event
replaces or creates the document wholesale via `insert`. -/
def applyChange (document_map : DocumentMap) (uri : Url)
    (event : TextDocumentContentChangeEvent) : Except Panic DocumentMap :=
  match event.range with
  | some r =>
    match document_map uri with
    | none =>
      .error ⟨"textDocument/didChange was called so the document must be present"⟩
    | some document =>
      match position_to_offset r.start document with
      | .error p => .error p
      | .ok none => .error ⟨"Range must be in document"⟩
      | .ok (some start) =>
        match position_to_offset r.ending document with
        | .error p => .error p
        | .ok none => .error ⟨"Range must be in document"⟩
        | .ok (some stop) =>
          match replaceRange document start stop event.text with
          | .error p => .error p
          | .ok newDocument => .ok (mapInsert uri newDocument document_map)
  | none => .ok (mapInsert uri event.text document_map)

/-- `did_change` in `src/cli/lsp.rs`: apply the batch of change events in
order, each against the result of the previous one; a panic aborts the
whole handler. -/
def did_change (document_map : DocumentMap) (uri : Url)
    (content_changes : List TextDocumentContentChangeEvent) :
    Except Panic DocumentMap :=
  match content_changes with
  | [] => .ok document_map
  | event :: rest =>
    match applyChange document_map uri event with
    | .error p => .error p
    | .ok m => did_change m uri rest

/-- `lsp_types::WorkspaceFolder`: a root folder, identified by URI and name. -/
structure WorkspaceFolder where
  uri : Url
  name : String
deriving DecidableEq, Repr

/-- `did_change_workspace_folders` in `src/cli/lsp.rs`, under the registry's
single write lock (rendered as one state transition):
`retain(|folder| !removed.contains(folder))` then `extend(added)`. -/
def did_change_workspace_folders (folders : List WorkspaceFolder)
    (added removed : List WorkspaceFolder) : List WorkspaceFolder :=
  let retained := folders.filter (fun folder => !removed.contains folder)
  retained ++ added

/-- `lsp_types::PositionEncodingKind` (only these three values exist). -/
inductive PositionEncodingKind
  | utf8
  | utf16
  | utf32
deriving DecidableEq, Repr

/-- `general.position_encodings` of the client capabilities. -/
structure GeneralClientCapabilities where
  position_encodings : Option (List PositionEncodingKind)
deriving DecidableEq, Repr

/-- The part of `lsp_types::ClientCapabilities` the handler reads. -/
structure ClientCapabilities where
  general : Option GeneralClientCapabilities
deriving DecidableEq, Repr

/-- The part of `lsp_types::InitializeParams` the handler reads. -/
structure InitializeParams where
  workspace_folders : Option (List WorkspaceFolder)
  capabilities : ClientCapabilities
deriving DecidableEq, Repr

/-- `tower_lsp::jsonrpc::ErrorCode` (the codes this core can produce). -/
inductive ErrorCode
  | ParseError
  | InvalidRequest
  | MethodNotFound
  | InvalidParams
  | InternalError
deriving DecidableEq, Repr

/-- `tower_lsp::jsonrpc::Error`: a structured protocol error, as opposed to
a `Panic`. -/
structure JsonRpcError where
  code : ErrorCode
  message : String
deriving DecidableEq, Repr

/-- The part of `lsp_types::InitializeResult` this development observes:
the advertised server name and negotiated position encoding. -/
structure InitializeResult where
  server_name : String
  position_encoding : PositionEncodingKind
deriving DecidableEq, Repr

/-- The `initialize` handler in `src/cli/lsp.rs`: first overwrite the
workspace-folder registry with the client-supplied folders (when present),
then check that the client supports UTF-8 position encoding, rejecting with
an `InvalidParams` error otherwise. Returns the registry state after the
handler together with the response. -/
def handleInit (folders : List WorkspaceFolder)
    (params : InitializeParams) :
    List WorkspaceFolder × Except JsonRpcError InitializeResult :=
  let folders1 :=
    match params.workspace_folders with
    | some new_folders => new_folders
    | none => folders
  let supports_utf8 :=
    match params.capabilities.general with
    | none => false
    | some general =>
      match general.position_encodings with
      | none => false
      | some position_encodings => position_encodings.contains .utf8
  if supports_utf8 then
    (folders1, .ok ⟨"StyLua", .utf8⟩)
  else
    (folders1,
     .error ⟨.InvalidParams, "StyLua only supports UTF8 as position encoding"⟩)

/-- A concrete resolved configuration (stylua's documented defaults), used
to instantiate theorems at concrete inputs. -/
def sampleConfig : Config :=
  ⟨120, .Unix, .Tabs, 4, .AutoPreferDouble, .Always, .Never, false⟩

/-- Concrete editor formatting options used to instantiate theorems. -/
def sampleOptions : FormattingOptions :=
  ⟨4, true, none, none, none⟩

/-- A formatting engine that returns its input unchanged: the engine is an
external collaborator, so any total function is an admissible engine. -/
def idEngine : Engine := fun text _ _ => text

end StyLuaLsp

namespace StyLuaLsp

example : splitInclusive "a\n".toList = ["a\n".toList] := by decide
example : splitInclusive "a\nb".toList = ["a\n".toList, ['b']] := by decide
example : splitInclusive "".toList = [] := by decide
example : position_to_offset ⟨0, 0⟩ "a\n".toList = .ok (some 0) := by decide
example : position_to_offset ⟨1, 0⟩ "a\n".toList = .ok none := by decide
example : position_to_offset ⟨0, 5⟩ "a".toList =
    .error ⟨"byte index out of bounds of string slice"⟩ := by decide
example : position_to_offset ⟨0, 1⟩ "ab\ncd".toList = .ok (some 1) := by decide
example : position_to_offset ⟨1, 2⟩ "ab\ncd".toList = .ok (some 5) := by decide

example : rustLines "a\nb\n".toList = [['a'], ['b']] := by decide
example : computeDiff (splitInclusive "a\n".toList) (splitInclusive "a\nb\n".toList) =
    [.equal 0 0 1, .insert 1 1 1] := by decide
example : diffEdits "a\n".toList "a\nb\n".toList .Unix =
    [⟨⟨⟨1, 0⟩, ⟨1, 0⟩⟩, ['b']⟩] := by decide
example : diffEdits "a\nb\nc\n".toList "a\nx\nc\n".toList .Unix =
    [⟨⟨⟨1, 0⟩, ⟨2, 0⟩⟩, ['x']⟩] := by decide

/-- Taking a prefix of length `k ≤ length` yields a list of length `k`. -/
theorem take_length_of_le (s : Text) (k : Nat) (h : k ≤ s.length) :
    (s.take k).length = k := by
  rw [List.length_take]
  exact Nat.min_eq_left h

/-- The scan of line starts has one entry per line: entry `i` is the base
accumulator plus the total length of the lines before line `i`. -/
theorem lineStartsFrom_get? (ls : List Text) :
    ∀ (a i : Nat), (lineStartsFrom a ls).get? i =
      if i < ls.length then some (a + sumLens (ls.take i)) else none := by
  induction ls with
  | nil => intro a i; simp [lineStartsFrom]
  | cons l ls ih =>
    intro a i
    cases i with
    | zero => simp [lineStartsFrom, sumLens]
    | succ n =>
      simp only [lineStartsFrom, List.get?_cons_succ, ih, List.length_cons,
        List.take_succ_cons, sumLens]
      by_cases h : n < ls.length
      · rw [if_pos h, if_pos (by omega)]
        congr 1
        omega
      · rw [if_neg h, if_neg (by omega)]

/-- The `line`-th start offset exists exactly for `line < lineCount`, and
equals the running sum of the preceding line lengths. -/
theorem lineStarts_get?_eq (s : Text) (i : Nat) :
    (lineStarts s).get? i =
      if i < lineCount s then some (lineStartSum s i) else none := by
  simpa [lineStarts, lineCount, lineStartSum] using
    lineStartsFrom_get? (splitInclusive s) 0 i

/-- A list shares its whole length as common prefix with itself. -/
theorem commonPrefixLen_self (l : List Text) : commonPrefixLen l l = l.length := by
  induction l with
  | nil => rfl
  | cons x xs ih => simp [commonPrefixLen, ih]

/-- Diffing a text against itself produces no edits. -/
theorem diffEdits_self (t : Text) (le : LineEndings) : diffEdits t t le = [] := by
  unfold diffEdits computeDiff
  simp [commonPrefixLen_self, List.drop_length, commonSuffixLen, commonPrefixLen,
    groupedOpsZero, DiffOp.isEqualOp]

/-- Characterization of the Offset Translator: an out-of-range line yields
`ok none`; otherwise the result is the line's running-sum start plus the
character count when that stays within the buffer, and the slice panic
when it does not. -/
theorem position_to_offset_char (pos : Position) (s : Text) :
    position_to_offset pos s =
      if pos.line < lineCount s then
        (if lineStartSum s pos.line + pos.character ≤ s.length then
          Except.ok (some (lineStartSum s pos.line + pos.character))
        else Except.error ⟨"byte index out of bounds of string slice"⟩)
      else Except.ok none := by
  unfold position_to_offset
  rw [lineStarts_get?_eq]
  by_cases h : pos.line < lineCount s
  · simp only [if_pos h]
    by_cases h2 : lineStartSum s pos.line + pos.character ≤ s.length
    · simp only [if_pos h2, take_length_of_le s _ h2]
    · simp only [if_neg h2]
  · simp only [if_neg h]

/-- Claim C1 is false of the code: with document `a\n` open, a range-format
request whose start position (line 5, at/beyond the line count) does not
resolve nevertheless succeeds — the request returns `ok` with an edit list
instead of failing with a structured error. -/
theorem C1_counterexample :
    position_to_offset ⟨5, 0⟩ "a\n".toList = .ok none ∧
    format_document (mapInsert "file:///t.lua" "a\n".toList emptyMap)
      "file:///t.lua" (some ⟨⟨5, 0⟩, ⟨0, 0⟩⟩) sampleOptions sampleConfig
      idEngine = .ok [] := by
  exact ⟨by decide, by decide⟩

/-- Claim C1 (amended): when a sub-range position fails to resolve (and
neither translation panics), the request does not fail — the unresolved
position is passed to the engine as a `none` (unbounded) bound of the
`stylua_lib` range and formatting proceeds on that basis. -/
theorem C1_amended (document_map : DocumentMap) (uri : Url) (document : Text)
    (r : Range) (format_options : FormattingOptions) (resolved : Config)
    (engine : Engine) (startOffset endOffset : Option Nat)
    (hdoc : document_map uri = some document)
    (hstart : position_to_offset r.start document = .ok startOffset)
    (hend : position_to_offset r.ending document = .ok endOffset) :
    format_document document_map uri (some r) format_options resolved engine =
      .ok (diffEdits document
        (engine document (get_config resolved format_options)
          (some ⟨startOffset, endOffset⟩))
        (get_config resolved format_options).line_endings) := by
  simp [format_document, hdoc, hstart, hend]

/-- Witness for C1 (amended) at a concrete input: the unresolved start
position of the sub-range becomes the unbounded `none` side. -/
theorem C1_witness :
    format_document (mapInsert "file:///w.lua" "a\n".toList emptyMap)
      "file:///w.lua" (some ⟨⟨5, 0⟩, ⟨0, 0⟩⟩) sampleOptions sampleConfig
      idEngine =
      .ok (diffEdits "a\n".toList
        (idEngine "a\n".toList (get_config sampleConfig sampleOptions)
          (some ⟨none, some 0⟩))
        (get_config sampleConfig sampleOptions).line_endings) :=
  C1_amended _ _ _ _ _ _ _ none (some 0) (by decide) (by decide) (by decide)

/-- Claim C2: the code aborts at the failing inputs. A format request for a
never-opened URI and a range-bearing change event for a never-opened URI
both end in the `expect` panic (a process-terminating assertion), not in a
structured protocol error as the claim requires. -/
theorem C2_code_panics :
    format_document emptyMap "file:///missing.lua" none sampleOptions
      sampleConfig idEngine =
      .error ⟨"textDocument/didOpen must have been called before"⟩ ∧
    did_change emptyMap "file:///missing.lua"
      [⟨some ⟨⟨0, 0⟩, ⟨0, 0⟩⟩, none, []⟩] =
      .error ⟨"textDocument/didChange was called so the document must be present"⟩ := by
  exact ⟨rfl, rfl⟩

/-- Claim C3 is false of the code: on buffer `a`, position (0, 5) makes the
translator abort (the string-slice panic), rather than failing explicitly
or returning an in-bounds offset. -/
theorem C3_counterexample :
    position_to_offset ⟨0, 5⟩ "a".toList =
      .error ⟨"byte index out of bounds of string slice"⟩ := by
  decide

/-- Claim C3 (amended): any offset the translator returns is within
`[0, len(buffer)]`, and an out-of-range line fails explicitly; but when the
line resolves and its start offset plus `character` exceeds the buffer
length, the translator aborts (string-slice panic) instead of failing
explicitly. -/
theorem C3_amended (pos : Position) (s : Text) :
    (∀ o : Nat, position_to_offset pos s = .ok (some o) → o ≤ s.length) ∧
    (lineCount s ≤ pos.line → position_to_offset pos s = .ok none) ∧
    (∀ start : Nat, (lineStarts s).get? pos.line = some start →
      s.length < start + pos.character →
      position_to_offset pos s =
        .error ⟨"byte index out of bounds of string slice"⟩) := by
  refine ⟨?_, ?_, ?_⟩
  · intro o h
    rw [position_to_offset_char] at h
    by_cases h1 : pos.line < lineCount s
    · rw [if_pos h1] at h
      by_cases h2 : lineStartSum s pos.line + pos.character ≤ s.length
      · rw [if_pos h2] at h
        injection h with h3
        injection h3 with h4
        omega
      · rw [if_neg h2] at h
        simp at h
    · rw [if_neg h1] at h
      simp at h
  · intro h
    rw [position_to_offset_char, if_neg (by omega)]
  · intro start hg hlt
    rw [lineStarts_get?_eq] at hg
    by_cases h1 : pos.line < lineCount s
    · rw [if_pos h1] at hg
      injection hg with hg1
      rw [position_to_offset_char, if_pos h1, if_neg (by omega)]
    · rw [if_neg h1] at hg
      simp at hg

/-- Witness for C3 (amended) at concrete inputs: a line index at or beyond
the line count fails explicitly with no offset, and an overshooting
character count makes the translator abort. -/
theorem C3_witness :
    position_to_offset ⟨4, 0⟩ "ab\ncd".toList = .ok none ∧
    position_to_offset ⟨0, 7⟩ "ab\ncd".toList =
      .error ⟨"byte index out of bounds of string slice"⟩ :=
  ⟨(C3_amended ⟨4, 0⟩ "ab\ncd".toList).2.1 (by decide),
   (C3_amended ⟨0, 7⟩ "ab\ncd".toList).2.2 0 (by decide) (by decide)⟩

/-- Claim C4 is false of the code: on buffer `ab`, line 0 is below the line
count, yet position (0, 7) does not return the line-start-plus-character
offset — the translator aborts on the out-of-bounds slice. -/
theorem C4_counterexample :
    0 < lineCount "ab".toList ∧
    position_to_offset ⟨0, 7⟩ "ab".toList =
      .error ⟨"byte index out of bounds of string slice"⟩ ∧
    position_to_offset ⟨0, 7⟩ "ab".toList ≠
      .ok (some (lineStartSum "ab".toList 0 + 7)) := by
  decide

/-- Claim C4 (amended): with lines counted inclusively of their terminator
(except possibly the last), a line index at or beyond the line count fails
(returns no offset); a line index below the line count returns the
running-sum start offset of that line plus the character count, provided
that sum does not exceed the buffer length (the translator aborts
otherwise). -/
theorem C4_amended (pos : Position) (s : Text) :
    (lineCount s ≤ pos.line → position_to_offset pos s = .ok none) ∧
    (pos.line < lineCount s →
      lineStartSum s pos.line + pos.character ≤ s.length →
      position_to_offset pos s =
        .ok (some (lineStartSum s pos.line + pos.character))) := by
  constructor
  · intro h
    rw [position_to_offset_char, if_neg (by omega)]
  · intro hlt hle
    rw [position_to_offset_char, if_pos hlt, if_pos hle]

/-- Witness for C4 (amended) at a concrete input: position (1, 2) of
`ab\ncd\n` resolves to the start of line 1 plus 2. -/
theorem C4_witness :
    position_to_offset ⟨1, 2⟩ "ab\ncd\n".toList =
      .ok (some (lineStartSum "ab\ncd\n".toList 1 + 2)) :=
  (C4_amended ⟨1, 2⟩ "ab\ncd\n".toList).2 (by decide) (by decide)

/-- Claim C5: the code's behavior at the spec fixture. Diffing `a\n`
against `a\nb\n` yields exactly one zero-width edit at line 1 character 0,
but its replacement text is `b`, not `b\n`: `lines()` strips every
terminator and `join` only separates, so the inserted block's trailing
newline is lost and applying the edit yields `a\nb` instead of the new
text `a\nb\n`. -/
theorem C5_code_behavior :
    diffEdits "a\n".toList "a\nb\n".toList .Unix =
      [⟨⟨⟨1, 0⟩, ⟨1, 0⟩⟩, ['b']⟩] ∧
    diffEdits "a\n".toList "a\nb\n".toList .Unix ≠
      [⟨⟨⟨1, 0⟩, ⟨1, 0⟩⟩, "b\n".toList⟩] := by
  decide

/-- Claim C6: diffing any text against itself yields zero edits, and a
format request whose engine output equals the document's current text
returns the empty edit list inside an `ok` response — the canonical
already-formatted signal, distinct from an error. -/
theorem C6_already_formatted :
    (∀ (text : Text) (le : LineEndings), diffEdits text text le = []) ∧
    (∀ (document_map : DocumentMap) (uri : Url) (document : Text)
      (format_options : FormattingOptions) (resolved : Config)
      (engine : Engine),
      document_map uri = some document →
      engine document (get_config resolved format_options) none = document →
      format_document document_map uri none format_options resolved engine =
        .ok []) := by
  refine ⟨diffEdits_self, ?_⟩
  intro document_map uri document format_options resolved engine hdoc heng
  simp [format_document, hdoc, heng, diffEdits_self]

/-- Witness for C6 at a concrete input: a document formatted by an engine
returning it unchanged produces the empty edit list. -/
theorem C6_witness :
    format_document (mapInsert "file:///ok.lua" "x\n".toList emptyMap)
      "file:///ok.lua" none sampleOptions sampleConfig idEngine = .ok [] :=
  C6_already_formatted.2 _ _ "x\n".toList _ _ _ (by decide) rfl

/-- Claim C7: after a folder-change notification the registry equals its
previous contents with every folder present in the removed list filtered
out, followed by every folder of the added list appended in order; the
handler is a single state transition performed under the registry's write
lock. -/
theorem C7_folder_change (folders added removed : List WorkspaceFolder) :
    did_change_workspace_folders folders added removed =
      folders.filter (fun folder => decide (folder ∉ removed)) ++ added := by
  show List.filter (fun folder => !removed.contains folder) folders ++ added =
    List.filter (fun folder => decide (folder ∉ removed)) folders ++ added
  congr 1
  apply List.filter_congr
  intro folder _
  by_cases h : folder ∈ removed <;> simp [List.elem_iff, h]

/-- Claim C8: the effective configuration is the resolved configuration
with exactly the indentation width and tabs-vs-spaces fields overridden by
the editor options, and every other field unchanged. -/
theorem C8_config_override (resolved : Config)
    (format_options : FormattingOptions) :
    (get_config resolved format_options).indent_width =
      format_options.tab_size ∧
    (get_config resolved format_options).indent_type =
      (if format_options.insert_spaces then IndentType.Spaces
       else IndentType.Tabs) ∧
    (get_config resolved format_options).column_width =
      resolved.column_width ∧
    (get_config resolved format_options).line_endings =
      resolved.line_endings ∧
    (get_config resolved format_options).quote_style =
      resolved.quote_style ∧
    (get_config resolved format_options).call_parens =
      resolved.call_parens ∧
    (get_config resolved format_options).collapse_simple_statement =
      resolved.collapse_simple_statement ∧
    (get_config resolved format_options).sort_requires =
      resolved.sort_requires :=
  ⟨rfl, rfl, rfl, rfl, rfl, rfl, rfl, rfl⟩

/-- Claim C9: the initialize handler overwrites the workspace-folder
registry with the client-supplied folders before the position-encoding
check, so a request rejected with the invalid-parameters error has already
replaced the registry contents: state is not left unchanged on a
negotiation failure. -/
theorem C9_reject_overwrites_folders
    (folders new_folders : List WorkspaceFolder)
    (capabilities : ClientCapabilities)
    (h : ∀ (general : GeneralClientCapabilities)
      (encodings : List PositionEncodingKind),
      capabilities.general = some general →
      general.position_encodings = some encodings →
      PositionEncodingKind.utf8 ∉ encodings) :
    handleInit folders ⟨some new_folders, capabilities⟩ =
      (new_folders,
       .error ⟨.InvalidParams,
         "StyLua only supports UTF8 as position encoding"⟩) := by
  unfold handleInit
  cases hg : capabilities.general with
  | none => simp [hg]
  | some general =>
    cases he : general.position_encodings with
    | none => simp [hg, he]
    | some encodings =>
      have hmem := h general encodings hg he
      simp [hg, he, List.elem_iff, hmem]

/-- Witness for C9 at a concrete input: a client advertising only UTF-16
is rejected, yet its folder list has replaced the registry. -/
theorem C9_witness :
    handleInit [] ⟨some [⟨"file:///w", "w"⟩], ⟨some ⟨some [.utf16]⟩⟩⟩ =
      ([⟨"file:///w", "w"⟩],
       .error ⟨.InvalidParams,
         "StyLua only supports UTF8 as position encoding"⟩) :=
  C9_reject_overwrites_folders [] _ _ (by
    intro general encodings hg he
    injection hg with hg1
    subst hg1
    injection he with he1
    subst he1
    decide)

/-- Claim C10: a change event with no range addressed to a never-opened
URI does not fail — it inserts the document into the store with the
event's text — whereas a range-bearing change event for the same missing
URI aborts with the lookup panic. -/
theorem C10_change_missing_document (document_map : DocumentMap) (uri : Url)
    (text : Text) (r : Range) (range_length : Option Nat)
    (h : document_map uri = none) :
    did_change document_map uri [⟨none, range_length, text⟩] =
      .ok (mapInsert uri text document_map) ∧
    did_change document_map uri [⟨some r, range_length, text⟩] =
      .error ⟨"textDocument/didChange was called so the document must be present"⟩ := by
  constructor
  · rfl
  · simp [did_change, applyChange, h]

/-- Witness for C10 at a concrete input: a full-replacement event creates
the missing document, a ranged event for the same URI panics. -/
theorem C10_witness :
    did_change emptyMap "file:///new.lua" [⟨none, none, ['x']⟩] =
      .ok (mapInsert "file:///new.lua" ['x'] emptyMap) ∧
    did_change emptyMap "file:///new.lua"
      [⟨some ⟨⟨0, 0⟩, ⟨0, 0⟩⟩, none, ['x']⟩] =
      .error ⟨"textDocument/didChange was called so the document must be present"⟩ :=
  C10_change_missing_document emptyMap "file:///new.lua" ['x']
    ⟨⟨0, 0⟩, ⟨0, 0⟩⟩ none rfl

end StyLuaLsp
